import Mathlib

/-!
Verification of the business-image association workflow of a small Express/Supabase
backend. The definitions below are a shallow embedding of:

* `src/services/supabaseService.js` — `addImageToBusiness`, `removeImageFromBusiness`,
  `getBusinessImageUrl`;
* `sql/business_with_images.sql` — the `business` table, `validate_business_image_url`,
  `add_image_to_business`, `remove_image_from_business`;
* `src/controllers/uploadController.js` — the multer gate and the
  `uploadImageToBusiness` route handler;
* `src/controllers/businessController.js` — `updateBusiness` and
  `validateBusinessImages`.

The Record Store (Postgres `business` table) is embedded as a list of records and the
Blob Store (Supabase storage bucket) as a list of written paths.  Outcomes of the
external store calls (RPC availability, storage write success, cleanup success, ...)
are explicit boolean parameters gathered in `Env`; external error messages are
modelled by fixed placeholder strings since no proved property inspects them.
-/

namespace BusinessImages

/-- JS `String.prototype.includes` / SQL `LIKE '%pat%'`, at the character-list level:
`prefChars pat s` is true when `pat` is an initial segment of `s`. -/
def prefChars : List Char → List Char → Bool
  | [], _ => true
  | _ :: _, [] => false
  | p :: ps, c :: cs => p = c && prefChars ps cs

/-- Predicate `subChars pat s` is true when `pat` occurs contiguously somewhere inside `s`. -/
def subChars (pat : List Char) : List Char → Bool
  | [] => prefChars pat []
  | c :: cs => prefChars pat (c :: cs) || subChars pat cs

/-- Predicate `strContains s pat` : does the string `s` contain `pat` as a substring
(JS `s.includes(pat)`)? -/
def strContains (s pat : String) : Bool :=
  subChars pat.toList s.toList

/-- The blob-namespace marker: the storage bucket name `business-images`
(`BUSINESS_IMAGES_BUCKET` in supabaseService.js). -/
def bucketMarker : String := "business-images"

/-- A row of the `business` table (sql/business_with_images.sql).  `rating` is the
`NUMERIC` column, embedded as a rational; `reviews` and `created_at` are never read by
the operations under verification and are omitted. -/
structure Business where
  id : String
  user_id : String
  name : String
  btype : String
  address : Option String
  contact : Option String
  images : List String
  rating : ℚ
  description : Option String
  deriving DecidableEq, Repr

/-- The Record Store: the rows of the `business` table. -/
abbrev RecordStore := List Business

/-- Query `SELECT * FROM business WHERE id = bid` (first matching row, as `.single()`). -/
def findBusiness (store : RecordStore) (bid : String) : Option Business :=
  store.find? (fun b => b.id == bid)

/-- Statement `UPDATE business SET ... WHERE id = bid`: replace every row whose id matches. -/
def updateStore (store : RecordStore) (bid : String) (b' : Business) : RecordStore :=
  store.map (fun x => if x.id == bid then b' else x)

/-- SQL `validate_business_image_url(url)` from business_with_images.sql:
`url LIKE '%business-images%' OR url = ''`. -/
def validate_business_image_url (url : String) : Bool :=
  strContains url bucketMarker || url == ""

/-- SQL function `add_image_to_business(business_id, image_url)`: validate the URL,
append it unconditionally to the `images` array (`images || ARRAY[image_url]`),
raise if no row was found, and return the updated row.  A raised exception rolls the
update back, so the store is returned unchanged on every error path. -/
def add_image_to_business (store : RecordStore) (business_id image_url : String) :
    Except String Business × RecordStore :=
  if !validate_business_image_url image_url then
    (.error "Invalid image URL. Must be from business-images bucket.", store)
  else
    match findBusiness store business_id with
    | none => (.error ("Business with ID " ++ business_id ++ " not found"), store)
    | some b =>
      let b' := { b with images := b.images ++ [image_url] }
      (.ok b', updateStore store business_id b')

/-- SQL function `remove_image_from_business(business_id, image_url)`:
`images := array_remove(images, image_url)` removes every occurrence; raises if no row
was found; returns the updated row. -/
def remove_image_from_business (store : RecordStore) (business_id image_url : String) :
    Except String Business × RecordStore :=
  match findBusiness store business_id with
  | none => (.error ("Business with ID " ++ business_id ++ " not found"), store)
  | some b =>
    let b' := { b with images := b.images.filter (fun u => u ≠ image_url) }
    (.ok b', updateStore store business_id b')

/-- Service method `supabaseService.addImageToBusiness(businessId, imageUrl)`:
reject URLs without the bucket marker; try the `add_image_to_business` RPC; on any RPC
error (including an unavailable function, modelled by `rpcAvailable = false`) fall back
to a read-modify-write that skips the append when the URL is already present.
`manualUpdateOk` models the fallback `UPDATE` succeeding. -/
def addImageToBusiness (rpcAvailable manualUpdateOk : Bool) (store : RecordStore)
    (businessId imageUrl : String) : Except String Business × RecordStore :=
  if !strContains imageUrl bucketMarker then
    (.error "Image URL must be from the business-images storage bucket", store)
  else
    let rpcResult :=
      if rpcAvailable then add_image_to_business store businessId imageUrl
      else (.error "RPC function not available", store)
    match rpcResult with
    | (.ok b, store') => (.ok b, store')
    | (.error _, _) =>
      match findBusiness store businessId with
      | none => (.error ("Business not found: " ++ businessId), store)
      | some b =>
        let currentImages := b.images
        if imageUrl ∈ currentImages then (.ok b, store)
        else
          let updatedImages := currentImages ++ [imageUrl]
          if manualUpdateOk then
            let b' := { b with images := updatedImages }
            (.ok b', updateStore store businessId b')
          else (.error "Manual array update error", store)

/-- Service method `supabaseService.removeImageFromBusiness(businessId, imageUrl)`:
`rpc('remove_image_from_business').catch(fallback)` — the manual fallback runs only
when the RPC promise rejects (`rpcRejected`); an error carried by a resolved RPC call
is thrown directly without running the fallback. -/
def removeImageFromBusiness (rpcRejected manualUpdateOk : Bool) (store : RecordStore)
    (businessId imageUrl : String) : Except String Business × RecordStore :=
  if rpcRejected then
    match findBusiness store businessId with
    | none => (.error "Business not found", store)
    | some b =>
      let updatedImages := b.images.filter (fun u => u ≠ imageUrl)
      if manualUpdateOk then
        let b' := { b with images := updatedImages }
        (.ok b', updateStore store businessId b')
      else (.error "Manual array update error", store)
  else remove_image_from_business store businessId imageUrl

/-- Service method `supabaseService.getBusinessImageUrl(filePath)`: returns `null` for an empty path;
for every other path the body reads `this.supabase.storage`, but the service instance
defines no `supabase` property (only `client` and `adminClient`; `supabase` is a module
export, not a field), so the member access throws and the catch returns `null`.  The
function therefore returns `null` on every input. -/
def getBusinessImageUrl (_filePath : String) : Option String := none

/-- The mime-type allow-list of `uploadImageToBusiness` (uploadController.js line 261). -/
def allowedTypes : List String := ["image/jpeg", "image/png", "image/gif", "image/webp"]

/-- Case-insensitive hexadecimal digit, as matched by `[0-9a-f]` with the `i` flag. -/
def isHexChar (c : Char) : Bool :=
  c.isDigit || ('a' ≤ c && c ≤ 'f') || ('A' ≤ c && c ≤ 'F')

/-- The UUID regex of uploadController.js line 252:
`/^[0-9a-f]{8}-[0-9a-f]{4}-[0-9a-f]{4}-[0-9a-f]{4}-[0-9a-f]{12}$/i`
(36 characters, dashes at offsets 8, 13, 18, 23, hex digits elsewhere).
The preceding `!businessId` falsiness test is subsumed: the empty string fails the
length check. -/
def isUuidFormat (s : String) : Bool :=
  let cs := s.toList
  cs.length == 36 &&
    (List.range 36).all (fun i =>
      if i == 8 || i == 13 || i == 18 || i == 23 then cs.getD i ' ' == '-'
      else isHexChar (cs.getD i ' '))

/-- The multipart file attached to the request (`req.file`). -/
structure UploadFile where
  originalname : String
  mimetype : String
  size : Nat
  deriving DecidableEq, Repr

/-- Expression `req.file.originalname.split('.').pop()`: the part after the last dot (the whole
name when there is no dot, as in JS). -/
def fileExtensionOf (name : String) : String :=
  let r := name.toList.reverse
  let pre := r.takeWhile (fun c => c ≠ '.')
  if pre.length == r.length then name else ⟨pre.reverse⟩

/-- JS `String.prototype.startsWith`. -/
def strStarts (s pre : String) : Bool :=
  prefChars pre.toList s.toList

/-- The storage path generated at uploadController.js line 305:
`userId/businessId/timestamp-uuid.extension`, with the fresh `timestamp-uuid` part
supplied as `fresh`. -/
def mkFileName (userId businessId fresh : String) (f : UploadFile) : String :=
  userId ++ "/" ++ businessId ++ "/" ++ fresh ++ "." ++ fileExtensionOf f.originalname

/-- Outcome of the Blob Store write (`supabaseService.uploadBusinessImage`), as the
handler distinguishes it: success, a storage error with status 403, one with
status 413, or any other error. -/
inductive StorageOutcome where
  | ok
  | errDenied
  | errTooLarge
  | errOther
  deriving DecidableEq, Repr

/-- Outcomes of the external calls a single request can make, fixed per run:
whether the business lookup errors, the storage-write outcome, whether the
`add_image_to_business` RPC completes without error, whether the manual fallback
`UPDATE` succeeds, whether the compensation delete succeeds, and the fresh
`timestamp-uuid` filename component. -/
structure Env where
  lookupErr : Bool
  storage : StorageOutcome
  rpcAvailable : Bool
  manualUpdateOk : Bool
  cleanupOk : Bool
  fresh : String
  deriving DecidableEq, Repr

/-- A JSON response, restricted to the fields the handlers under verification set.
`success`/`error`/... are `none` when the handler leaves the field out of the JSON. -/
structure HttpResponse where
  status : Nat
  success : Option Bool
  error : Option String
  details : Option String
  storagePath : Option String
  message : Option String
  business : Option Business
  deriving DecidableEq, Repr

/-- An error response of the upload controller: `{ success: false, error: e }`. -/
def errResp (st : Nat) (e : String) : HttpResponse :=
  ⟨st, some false, some e, none, none, none, none⟩

/-- An error response with a `details` field. -/
def errRespD (st : Nat) (e d : String) : HttpResponse :=
  ⟨st, some false, some e, some d, none, none, none⟩

/-- An error response of the business controller: `{ error: e }` (no `success` key). -/
def plainErr (st : Nat) (e : String) : HttpResponse :=
  ⟨st, none, some e, none, none, none, none⟩

/-- Result of one request: the HTTP response, the final Blob Store (list of written
paths), the final Record Store, and the list of paths the handler asked the Blob Store
to delete (the compensation attempts). -/
structure WorkflowResult where
  resp : HttpResponse
  blobStore : List String
  recordStore : RecordStore
  deleteAttempts : List String
  deriving DecidableEq, Repr

/-- The TypeError message produced at uploadController.js line 382, where the handler
reads `.storage` off the undefined `supabaseService.supabase`. -/
def undefinedStorageMsg : String :=
  "Cannot read properties of undefined (reading storage)"

/-- The `uploadImageToBusiness` route handler (uploadController.js lines 234-429):
missing-file check, UUID check, mime allow-list, business lookup, ownership check,
storage write, association via `addImageToBusiness`, best-effort blob delete when the
association fails.  When the association succeeds the handler then evaluates
`supabaseService.supabase.storage` (line 382); that property is undefined, so the
access throws and the catch at line 406 answers
500 `Internal server error during image upload` — the 200 branch is unreachable,
although both stores keep the committed write. -/
def uploadImageToBusiness (env : Env) (userId businessId : String)
    (file : Option UploadFile) (blob : List String) (store : RecordStore) :
    WorkflowResult :=
  match file with
  | none =>
    ⟨errResp 400 "No image file provided. Please select an image file to upload.",
      blob, store, []⟩
  | some f =>
    if !isUuidFormat businessId then
      ⟨errResp 400 "Valid Business ID (UUID format) is required", blob, store, []⟩
    else if !(allowedTypes.contains f.mimetype) then
      ⟨errResp 400 "Invalid file type. Allowed types: image/jpeg, image/png, image/gif, image/webp",
        blob, store, []⟩
    else if env.lookupErr then
      ⟨errRespD 500 "Failed to verify business" "lookup error", blob, store, []⟩
    else
      match findBusiness store businessId with
      | none =>
        ⟨errResp 404 ("Business not found with ID: " ++ businessId), blob, store, []⟩
      | some b =>
        if b.user_id ≠ userId then
          ⟨errResp 403 "Permission denied: You can only upload images to your own businesses",
            blob, store, []⟩
        else
          let fileName := mkFileName userId businessId env.fresh f
          match env.storage with
          | .errDenied =>
            ⟨errRespD 403 "Storage access denied. Please check storage policies."
              "storage error", blob, store, []⟩
          | .errTooLarge =>
            ⟨errRespD 413 "File too large for storage (max 5MB)" "storage error",
              blob, store, []⟩
          | .errOther =>
            ⟨errRespD 400 "Failed to upload image to storage" "storage error",
              blob, store, []⟩
          | .ok =>
            let blob1 := blob ++ [fileName]
            match addImageToBusiness env.rpcAvailable env.manualUpdateOk store
                businessId fileName with
            | (.error emsg, store1) =>
              let blob2 := if env.cleanupOk then blob1.filter (fun p => p ≠ fileName)
                else blob1
              ⟨⟨500, some false, some "Image uploaded but failed to associate with business",
                  some emsg, some fileName, none, none⟩,
                blob2, store1, [fileName]⟩
            | (.ok _, store1) =>
              ⟨errRespD 500 "Internal server error during image upload" undefinedStorageMsg,
                blob1, store1, []⟩

/-- Option `limits.fileSize` of the multer configuration (uploadController.js line 22). -/
def fileSizeLimit : Nat := 5 * 1024 * 1024

/-- The answer of the global error handler (server.js lines 121-134) to an error
whose `type` is not `entity.too.large`: a `MulterError` carries `code`, not `type`,
so a multer middleware error takes this branch — 500 `Internal server error`, the
`message` field being the production default `Something went wrong` (outside
development, where it would echo the error message). -/
def globalErrResp : HttpResponse :=
  ⟨500, none, some "Internal server error", none, none, some "Something went wrong",
    none⟩

/-- The route `POST /upload-image/business/:businessId`: the multer middleware
(`upload.single('image')`, uploadController.js lines 9-24) runs before the handler.
When its `fileFilter` rejects a mimetype outside `image/*`, or its
`limits.fileSize = fileSizeLimit` cap is exceeded (`LIMIT_FILE_SIZE`), multer calls
`next(err)` before the route handler runs, so the request skips
`uploadImageToBusiness` entirely and the error lands in the global error handler
(server.js lines 121-134), which answers `globalErrResp` — the controller's own
catches mapping `LIMIT_FILE_SIZE` to 413 and the filter message to 400
(uploadController.js lines 409-421) are unreachable for these middleware errors. -/
def handleUpload (env : Env) (userId businessId : String) (file : Option UploadFile)
    (blob : List String) (store : RecordStore) : WorkflowResult :=
  match file with
  | some f =>
    if !(strStarts f.mimetype "image/") then
      ⟨globalErrResp, blob, store, []⟩
    else if f.size > fileSizeLimit then
      ⟨globalErrResp, blob, store, []⟩
    else uploadImageToBusiness env userId businessId (some f) blob store
  | none => uploadImageToBusiness env userId businessId none blob store

/-- One element of the `images` report of `validateBusinessImages`
(businessController.js lines 634-645).  In the source `isValid` is
`imageUrl && imageUrl.includes('business-images')`, whose truthiness is
`url ≠ "" && url` contains the marker; the embedding keeps that truth value. -/
structure ValidationEntry where
  url : String
  isValid : Bool
  publicUrl : Option String
  isBucketUrl : Bool
  hasProtocol : Bool
  deriving DecidableEq, Repr

/-- The JSON answered by `validateBusinessImages`. -/
structure ValidationReport where
  status : Nat
  success : Bool
  businessName : Option String
  totalImages : Nat
  validImages : Nat
  entries : List ValidationEntry
  raw : List String
  deriving DecidableEq, Repr

/-- The per-image record built in the loop of `validateBusinessImages`. -/
def validateEntry (imageUrl : String) : ValidationEntry :=
  let isValid := imageUrl ≠ "" && strContains imageUrl bucketMarker
  { url := imageUrl
    isValid := isValid
    publicUrl := if isValid then getBusinessImageUrl imageUrl else none
    isBucketUrl := strContains imageUrl bucketMarker
    hasProtocol := strStarts imageUrl "http" }

/-- The `validateBusinessImages` handler (businessController.js lines 615-669): fetch
the record (404 when absent), report one entry per image, and count the valid ones.
It performs no store write. -/
def validateBusinessImages (store : RecordStore) (businessId : String) :
    ValidationReport :=
  match findBusiness store businessId with
  | none =>
    { status := 404, success := false, businessName := none,
      totalImages := 0, validImages := 0, entries := [], raw := [] }
  | some b =>
    let images := b.images
    let results := images.map validateEntry
    let validCount := (results.filter (fun e => e.isValid)).length
    { status := 200, success := true, businessName := some b.name,
      totalImages := images.length, validImages := validCount,
      entries := results, raw := images }

/-- The request body of `PUT /api/business/:id`; `rating`, when present, is a JS
number embedded as a rational (the `typeof rating !== 'number'` guard of the source is
satisfied by construction, since only numbers are representable here). -/
structure UpdateBody where
  name : Option String
  btype : Option String
  address : Option String
  contact : Option String
  description : Option String
  rating : Option ℚ
  deriving DecidableEq, Repr

/-- The field updates the `updateBusiness` handler applies when validation passes:
provided fields are trimmed (optional ones becoming `null` when empty after the trim),
absent fields keep their stored value. -/
def applyBusinessUpdate (b : Business) (body : UpdateBody) : Business :=
  { b with
    name := match body.name with | none => b.name | some s => s.trim
    btype := match body.btype with | none => b.btype | some s => s.trim
    address := match body.address with
      | none => b.address
      | some s => if s.trim == "" then none else some s.trim
    contact := match body.contact with
      | none => b.contact
      | some s => if s.trim == "" then none else some s.trim
    description := match body.description with
      | none => b.description
      | some s => if s.trim == "" then none else some s.trim
    rating := body.rating.getD b.rating }

/-- The `updateBusiness` handler (businessController.js lines 430-491): fetch (404
when absent), ownership check (403), reject a rating outside `[0, 5]` with 400, then
apply the update through the Record Store (`updateOk` models the `UPDATE`
succeeding; its failure is answered with 400 `Failed to update business`). -/
def updateBusinessHandler (userId businessId : String) (body : UpdateBody)
    (updateOk : Bool) (store : RecordStore) : HttpResponse × RecordStore :=
  match findBusiness store businessId with
  | none => (plainErr 404 "Business not found", store)
  | some b =>
    if b.user_id ≠ userId then
      (plainErr 403 "You can only update your own businesses", store)
    else
      let ratingBad := match body.rating with
        | none => false
        | some r => decide (r < 0 ∨ 5 < r)
      if ratingBad then
        (plainErr 400 "Rating must be a number between 0 and 5", store)
      else if updateOk then
        let b' := applyBusinessUpdate b body
        (⟨200, none, none, none, none, some "Business updated successfully", some b'⟩,
          updateStore store businessId b')
      else (plainErr 400 "Failed to update business", store)

/-- Modelled from the spec: the HTTP surface declares a `DELETE` image-removal
endpoint (spec section 6) whose route handler is absent from `src/` — only the
Record Store primitive `removeImageFromBusiness` exists there.  Per spec section 4.3
the handler performs the ownership check of section 4.1 step 4 (`Forbidden` when the
caller does not own the record, leaving the store untouched) and otherwise delegates
to `removeImageFromBusiness`; it never touches the Blob Store. -/
def removeImage (rpcRejected manualUpdateOk : Bool)
    (callerId businessId imageUrl : String) (store : RecordStore) :
    Except String Business × RecordStore :=
  match findBusiness store businessId with
  | none => (.error "Business not found", store)
  | some b =>
    if b.user_id ≠ callerId then (.error "Forbidden", store)
    else removeImageFromBusiness rpcRejected manualUpdateOk store businessId imageUrl

/-- Spec-side validity of an image path (spec section 4.2): non-empty and containing
the blob-namespace marker as a substring, the latter stated with `List.IsInfix`
independently of the executable `strContains`. -/
def specImageValid (p : String) : Prop :=
  p ≠ "" ∧ bucketMarker.toList <:+: p.toList

/-- Function `prefChars` decides `List.IsPrefix`. -/
theorem prefChars_iff (ps : List Char) : ∀ cs, prefChars ps cs = true ↔ ps <+: cs := by
  induction ps with
  | nil => intro cs; simp [prefChars]
  | cons p ps ih =>
    intro cs
    cases cs with
    | nil => simp [prefChars]
    | cons c cs => simp [prefChars, List.cons_prefix_cons, ih]

/-- Function `subChars` decides `List.IsInfix`. -/
theorem subChars_iff (ps : List Char) : ∀ cs, subChars ps cs = true ↔ ps <:+: cs := by
  intro cs
  induction cs with
  | nil => simp [subChars, prefChars_iff]
  | cons c cs ih => simp [subChars, prefChars_iff, ih, List.infix_cons_iff]

/-- Function `strContains` decides substring containment. -/
theorem strContains_iff (s pat : String) :
    strContains s pat = true ↔ pat.toList <:+: s.toList :=
  subChars_iff pat.toList s.toList

instance (p : String) : Decidable (specImageValid p) :=
  decidable_of_iff (p ≠ "" ∧ strContains p bucketMarker = true)
    (by rw [strContains_iff, specImageValid])

/-- Replacing a record by itself leaves the store unchanged, provided the updated
record is the unique one carrying its id. -/
theorem updateStore_self (store : RecordStore) (bid : String) (b : Business)
    (hu : ∀ x ∈ store, x.id = bid → x = b) : updateStore store bid b = store := by
  induction store with
  | nil => rfl
  | cons x xs ih =>
    have hx := hu x (by simp)
    have := ih (fun y hy => hu y (by simp [hy]))
    unfold updateStore at this ⊢
    simp only [List.map_cons, this]
    by_cases h : x.id = bid
    · simp [h, hx h]
    · simp [h]

/-! ### Concrete fixtures used by witnesses and counterexamples -/

/-- A business id in the UUID format the controller requires. -/
def bidA : String := "00000000-0000-0000-0000-000000000000"

/-- A 1 KiB png upload. -/
def fileA : UploadFile := ⟨"photo.png", "image/png", 1024⟩

/-- An environment in which every external call succeeds. -/
def envA : Env := ⟨false, .ok, true, true, true, "t0"⟩

/-- Like `envA` but the compensation delete fails. -/
def envC : Env := ⟨false, .ok, true, true, false, "t0"⟩

/-- An owner id that happens to contain the bucket marker, so that the generated
storage path passes the marker check of `addImageToBusiness`. -/
def ownerA : String := "business-images"

/-- A business owned by `ownerA` with no images yet. -/
def bizA : Business := ⟨bidA, ownerA, "Cafe", "Food", none, none, [], 0, none⟩

/-- The storage path generated for `ownerA`, `bidA`, `fileA` with fresh part `t0`. -/
def pathA : String := mkFileName ownerA bidA "t0" fileA

/-- A path inside the bucket namespace, used for duplicate and removal tests. -/
def dupPath : String := "u1/business-images/a.png"

/-- A business owned by `u1` already holding `dupPath`. -/
def bizB : Business := ⟨bidA, "u1", "Cafe", "Food", none, none, [dupPath], 0, none⟩

/-- A business owned by `u1` with no images. -/
def bizC : Business := ⟨bidA, "u1", "Cafe", "Food", none, none, [], 0, none⟩

/-! ### C1 -/

/-- C1: for a valid upload the association step does return a record whose images are
the prior list with the generated path appended exactly once (first two conjuncts,
at the Record Store level), but the route handler never delivers that record: after
the successful association it reads `.storage` off the undefined
`supabaseService.supabase` (uploadController.js line 382), so the very same run
answers 500 `Internal server error during image upload` with no business in the body,
even though both stores keep the committed write (third conjunct). -/
theorem c1_assoc_appends_but_success_response_unreachable :
    (addImageToBusiness true true [bizA] bidA pathA).1
        = .ok { bizA with images := [pathA] } ∧
    List.count pathA { bizA with images := [pathA] }.images = 1 ∧
    uploadImageToBusiness envA ownerA bidA (some fileA) [] [bizA]
      = ⟨errRespD 500 "Internal server error during image upload" undefinedStorageMsg,
          [pathA], [{ bizA with images := [pathA] }], []⟩ :=
  ⟨rfl, by simp, rfl⟩

/-! ### C2 -/

/-- C2: inserting a path that is already present is NOT a no-op on the primary code
path.  With the `add_image_to_business` RPC available, `addImageToBusiness` appends
the already-present `dupPath` a second time (the SQL function appends
unconditionally), so the images list ends with two copies; only the manual fallback
(RPC unavailable) performs the duplicate check and returns the unchanged record. -/
theorem c2_rpc_path_appends_duplicate :
    (addImageToBusiness true true [bizB] bidA dupPath).1
        = .ok { bizB with images := [dupPath, dupPath] } ∧
    List.count dupPath { bizB with images := [dupPath, dupPath] }.images = 2 ∧
    dupPath ∈ bizB.images ∧
    (addImageToBusiness false true [bizB] bidA dupPath).1 = .ok bizB ∧
    (addImageToBusiness false true [bizB] bidA dupPath).2 = [bizB] :=
  ⟨rfl, by simp, by simp [bizB], rfl, rfl⟩

/-! ### C3 -/

/-- C3: when the caller does not own the record, `uploadImageToBusiness` answers 403
with both stores untouched and no blob delete attempted, and the (spec-modelled)
`removeImage` answers `Forbidden` with the Record Store untouched (it never touches
the Blob Store at all). -/
theorem c3_ownership_enforced (env : Env) (userId businessId callerId url : String)
    (f : UploadFile) (blob : List String) (store : RecordStore) (b : Business)
    (rj mu : Bool)
    (hfind : findBusiness store businessId = some b)
    (huuid : isUuidFormat businessId = true)
    (hmime : f.mimetype ∈ allowedTypes)
    (hlook : env.lookupErr = false) :
    (b.user_id ≠ userId →
      uploadImageToBusiness env userId businessId (some f) blob store
        = ⟨errResp 403 "Permission denied: You can only upload images to your own businesses",
            blob, store, []⟩) ∧
    (b.user_id ≠ callerId →
      removeImage rj mu callerId businessId url store = (.error "Forbidden", store)) := by
  constructor
  · intro hown
    unfold uploadImageToBusiness
    simp [huuid, hmime, hlook, hfind, hown]
  · intro hown
    unfold removeImage
    simp [hfind, hown]

/-- Witness for C3 at a concrete non-owner caller `u2`. -/
theorem c3_witness :
    uploadImageToBusiness envA "u2" bidA (some fileA) [] [bizC]
      = ⟨errResp 403 "Permission denied: You can only upload images to your own businesses",
          [], [bizC], []⟩ ∧
    removeImage false true "u2" bidA dupPath [bizC] = (.error "Forbidden", [bizC]) := by
  have h := c3_ownership_enforced envA "u2" bidA "u2" dupPath fileA [] [bizC] bizC
    false true rfl rfl (by decide) rfl
  exact ⟨h.1 (by decide), h.2 (by decide)⟩

/-! ### C4 -/

/-- C4: when the blob write succeeded and the association step fails, the handler
attempts to delete the just-written blob, and — whatever the cleanup outcome — the
caller receives the same 500 response carrying the original association error, with
the cleanup outcome never replacing it (last conjunct: the response is literally
independent of `cleanupOk`). -/
theorem c4_compensation_preserves_original_error (env : Env)
    (userId businessId : String) (f : UploadFile) (blob : List String)
    (store : RecordStore) (b : Business) (emsg : String) (store1 : RecordStore)
    (hfind : findBusiness store businessId = some b)
    (hown : b.user_id = userId)
    (huuid : isUuidFormat businessId = true)
    (hmime : f.mimetype ∈ allowedTypes)
    (hlook : env.lookupErr = false)
    (hstor : env.storage = .ok)
    (hassoc : addImageToBusiness env.rpcAvailable env.manualUpdateOk store businessId
        (mkFileName userId businessId env.fresh f) = (.error emsg, store1)) :
    mkFileName userId businessId env.fresh f
        ∈ (uploadImageToBusiness env userId businessId (some f) blob store).deleteAttempts ∧
    (uploadImageToBusiness env userId businessId (some f) blob store).resp
      = ⟨500, some false, some "Image uploaded but failed to associate with business",
          some emsg, some (mkFileName userId businessId env.fresh f), none, none⟩ ∧
    (∀ c₁ c₂ : Bool,
      (uploadImageToBusiness { env with cleanupOk := c₁ } userId businessId (some f)
          blob store).resp
        = (uploadImageToBusiness { env with cleanupOk := c₂ } userId businessId (some f)
            blob store).resp) := by
  refine ⟨?_, ?_, ?_⟩
  · unfold uploadImageToBusiness
    simp [huuid, hmime, hlook, hfind, hown, hstor, hassoc]
  · unfold uploadImageToBusiness
    simp [huuid, hmime, hlook, hfind, hown, hstor, hassoc]
  · intro c₁ c₂
    unfold uploadImageToBusiness
    simp [huuid, hmime, hlook, hfind, hown, hstor, hassoc]

/-- Witness for C4: owner `u1`; the generated path `u1/.../t0.png` lacks the bucket
marker, so the association fails while the blob write succeeded. -/
theorem c4_witness :
    mkFileName "u1" bidA "t0" fileA
        ∈ (uploadImageToBusiness envA "u1" bidA (some fileA) [] [bizC]).deleteAttempts ∧
    (uploadImageToBusiness envA "u1" bidA (some fileA) [] [bizC]).resp
      = ⟨500, some false, some "Image uploaded but failed to associate with business",
          some "Image URL must be from the business-images storage bucket",
          some (mkFileName "u1" bidA "t0" fileA), none, none⟩ ∧
    (uploadImageToBusiness { envA with cleanupOk := true } "u1" bidA (some fileA) []
        [bizC]).resp
      = (uploadImageToBusiness { envA with cleanupOk := false } "u1" bidA (some fileA)
          [] [bizC]).resp := by
  have h := c4_compensation_preserves_original_error envA "u1" bidA fileA [] [bizC]
    bizC "Image URL must be from the business-images storage bucket" [bizC]
    rfl rfl rfl (by decide) rfl rfl (by rfl)
  exact ⟨h.1, h.2.1, h.2.2 true false⟩

/-! ### C5 -/

/-- The `isValid` flag computed by `validateEntry` agrees with the spec-side
validity predicate. -/
theorem isValid_eq_spec (u : String) :
    (validateEntry u).isValid = decide (specImageValid u) := by
  by_cases hs : specImageValid u
  · rw [decide_eq_true hs]
    obtain ⟨h1, h2⟩ := hs
    show (decide (u ≠ "") && strContains u bucketMarker) = true
    simp [h1, (strContains_iff u bucketMarker).mpr h2]
  · rw [decide_eq_false hs]
    show (decide (u ≠ "") && strContains u bucketMarker) = false
    by_cases h1 : u = ""
    · simp [h1]
    · have h2 : ¬ bucketMarker.toList <:+: u.toList := fun hinf => hs ⟨h1, hinf⟩
      have hf : strContains u bucketMarker = false := by
        cases hb : strContains u bucketMarker
        · rfl
        · exact absurd ((strContains_iff u bucketMarker).mp hb) h2
      simp [hf]

/-- Counting the valid entries of the report equals counting the spec-valid paths. -/
theorem validCount_eq_countP (l : List String) :
    ((l.map validateEntry).filter (fun e => e.isValid)).length
      = l.countP (fun u => decide (specImageValid u)) := by
  induction l with
  | nil => rfl
  | cons u l ih =>
    simp only [List.map_cons, List.filter_cons, List.countP_cons, isValid_eq_spec u]
    cases h : decide (specImageValid u) <;> simp [h, ih]

/-- C5: for an existing record, every entry of the `validateImages` report is flagged
valid exactly when its path is non-empty and contains the blob-namespace marker
(stated with the spec-side `specImageValid`, tied to the executable check by
`strContains_iff`); the reported entries are the record's images in order, the valid
count is the number of spec-valid paths, and the total is the number of images. -/
theorem c5_validate_images_report (store : RecordStore) (businessId : String)
    (b : Business)
    (hfind : findBusiness store businessId = some b) :
    (∀ e ∈ (validateBusinessImages store businessId).entries,
        (e.isValid = true ↔ specImageValid e.url)) ∧
    (validateBusinessImages store businessId).entries.map (fun e => e.url) = b.images ∧
    (validateBusinessImages store businessId).validImages
      = b.images.countP (fun u => decide (specImageValid u)) ∧
    (validateBusinessImages store businessId).totalImages = b.images.length := by
  unfold validateBusinessImages
  rw [hfind]
  refine ⟨?_, ?_, ?_, ?_⟩
  · intro e he
    simp only [List.mem_map] at he
    obtain ⟨u, _, rfl⟩ := he
    rw [isValid_eq_spec u]
    simp [validateEntry]
  · simp [Function.comp_def, validateEntry]
  · exact validCount_eq_countP b.images
  · rfl

/-- Witness for C5 on a record with an empty path, a marker path and a foreign URL. -/
theorem c5_witness :
    (validateBusinessImages
        [⟨bidA, "u1", "Cafe", "Food", none, none,
          ["", dupPath, "http://other.example/x.png"], 0, none⟩] bidA).validImages = 1 ∧
    (validateBusinessImages
        [⟨bidA, "u1", "Cafe", "Food", none, none,
          ["", dupPath, "http://other.example/x.png"], 0, none⟩] bidA).totalImages = 3 := by
  have h := c5_validate_images_report
    [⟨bidA, "u1", "Cafe", "Food", none, none,
      ["", dupPath, "http://other.example/x.png"], 0, none⟩] bidA
    ⟨bidA, "u1", "Cafe", "Food", none, none,
      ["", dupPath, "http://other.example/x.png"], 0, none⟩ rfl
  refine ⟨?_, ?_⟩
  · rw [h.2.2.1]
    decide
  · rw [h.2.2.2]
    rfl

/-! ### C6 -/

/-- C6: for an existing record, removal — on either code path (RPC or manual
fallback), with the store update succeeding — returns the record with every
occurrence of the path filtered out: the path is gone, every other entry keeps its
multiplicity (and order, being a filter); and removing an absent path returns the
unchanged record with the store untouched, not an error. -/
theorem c6_remove_all_occurrences (rj : Bool) (store : RecordStore)
    (businessId url : String) (b : Business)
    (hfind : findBusiness store businessId = some b)
    (hu : ∀ x ∈ store, x.id = businessId → x = b) :
    (removeImageFromBusiness rj true store businessId url).1
        = .ok { b with images := b.images.filter (fun u => u ≠ url) } ∧
    url ∉ (b.images.filter (fun u => u ≠ url)) ∧
    (∀ v, v ≠ url →
      List.count v (b.images.filter (fun u => u ≠ url)) = List.count v b.images) ∧
    (url ∉ b.images →
      removeImageFromBusiness rj true store businessId url = (.ok b, store)) := by
  refine ⟨?_, ?_, ?_, ?_⟩
  · unfold removeImageFromBusiness remove_image_from_business
    cases rj <;> simp [hfind]
  · simp
  · intro v hv
    exact List.count_filter (by simpa using hv)
  · intro habs
    have hfilter : List.filter (fun u => !decide (u = url)) b.images = b.images :=
      List.filter_eq_self.mpr (fun a ha => by
        simp only [Bool.not_eq_eq_eq_not, Bool.not_true, decide_eq_false_iff_not]
        exact fun h => habs (h ▸ ha))
    unfold removeImageFromBusiness remove_image_from_business
    cases rj <;>
      simp [hfind, hfilter, updateStore_self store businessId b hu]

/-- Witness for C6: removing the present `dupPath` empties the list; removing an
absent path is a no-op. -/
theorem c6_witness :
    (removeImageFromBusiness false true [bizB] bidA dupPath).1
        = .ok { bizB with images := [] } ∧
    removeImageFromBusiness false true [bizB] bidA "absent.png"
        = (.ok bizB, [bizB]) := by
  have h1 := c6_remove_all_occurrences false [bizB] bidA dupPath bizB rfl
    (by intro x hx _; simpa using hx)
  have h2 := c6_remove_all_occurrences false [bizB] bidA "absent.png" bizB rfl
    (by intro x hx _; simpa using hx)
  constructor
  · rw [h1.1]
    simp [bizB]
  · exact h2.2.2.2 (by decide)

/-! ### C7 -/

/-- C7: a file of exactly `5*1024*1024` bytes passes the multer size gate (the
request proceeds to the route handler unchanged), as the claim states; but a file of
`5*1024*1024 + 1` bytes is NOT rejected with the FileTooLarge/413 mapping — multer
aborts before the route handler runs and the global error handler answers
500 `Internal server error` (`globalErrResp`), the controller's 413 branch and the
route's swagger-documented 413 being dead code for middleware errors. -/
theorem c7_size_boundary_hits_global_handler (env : Env)
    (userId businessId nameStr mt : String) (blob : List String) (store : RecordStore)
    (hmt : strStarts mt "image/" = true) :
    handleUpload env userId businessId (some ⟨nameStr, mt, fileSizeLimit⟩) blob store
      = uploadImageToBusiness env userId businessId (some ⟨nameStr, mt, fileSizeLimit⟩)
          blob store ∧
    handleUpload env userId businessId (some ⟨nameStr, mt, fileSizeLimit + 1⟩) blob store
      = ⟨globalErrResp, blob, store, []⟩ ∧
    (handleUpload env userId businessId (some ⟨nameStr, mt, fileSizeLimit + 1⟩) blob
        store).resp.status ≠ 413 := by
  have hng : ¬ (fileSizeLimit > fileSizeLimit) := Nat.lt_irrefl _
  have hgt : fileSizeLimit + 1 > fileSizeLimit := Nat.lt_succ_self _
  refine ⟨?_, ?_, ?_⟩
  · unfold handleUpload
    simp [hmt, hng]
  · unfold handleUpload
    simp [hmt, hgt]
  · unfold handleUpload
    simp [hmt, hgt, globalErrResp]

/-- Witness for C7 at a concrete png upload on both sides of the boundary. -/
theorem c7_witness :
    handleUpload envA "u1" bidA (some ⟨"a.png", "image/png", fileSizeLimit⟩) [] [bizC]
      = uploadImageToBusiness envA "u1" bidA (some ⟨"a.png", "image/png", fileSizeLimit⟩)
          [] [bizC] ∧
    handleUpload envA "u1" bidA (some ⟨"a.png", "image/png", fileSizeLimit + 1⟩) [] [bizC]
      = ⟨globalErrResp, [], [bizC], []⟩ := by
  have h := c7_size_boundary_hits_global_handler envA "u1" bidA "a.png" "image/png"
    [] [bizC] (by decide)
  exact ⟨h.1, h.2.1⟩

/-! ### C8 -/

/-- Membership in an updated store: each element is the replacement or an original. -/
theorem mem_updateStore (store : RecordStore) (bid : String) (b' y : Business)
    (hy : y ∈ updateStore store bid b') : y = b' ∨ y ∈ store := by
  unfold updateStore at hy
  obtain ⟨x, hx, hxy⟩ := List.mem_map.mp hy
  by_cases h : x.id == bid
  · left
    rw [← hxy]
    simp [h]
  · right
    rw [← hxy]
    simpa [h] using hx

/-- C8: an update carrying a rating outside `[0, 5]` is rejected with 400 and the
store is unchanged; a rating inside the range is accepted (status 200, the returned
record carries exactly that rating); and any rating-carrying update preserves the
invariant that every stored rating lies in `[0, 5]`. -/
theorem c8_rating_range (userId businessId : String) (body : UpdateBody)
    (store : RecordStore) (b : Business) (r : ℚ) (updateOk : Bool)
    (hfind : findBusiness store businessId = some b)
    (hown : b.user_id = userId)
    (hr : body.rating = some r) :
    ((r < 0 ∨ 5 < r) →
      updateBusinessHandler userId businessId body updateOk store
        = (plainErr 400 "Rating must be a number between 0 and 5", store)) ∧
    (0 ≤ r → r ≤ 5 →
      (updateBusinessHandler userId businessId body true store).1.status = 200 ∧
      (updateBusinessHandler userId businessId body true store).1.business
        = some (applyBusinessUpdate b body) ∧
      (applyBusinessUpdate b body).rating = r) ∧
    ((∀ x ∈ store, 0 ≤ x.rating ∧ x.rating ≤ 5) →
      ∀ y ∈ (updateBusinessHandler userId businessId body updateOk store).2,
        0 ≤ y.rating ∧ y.rating ≤ 5) := by
  refine ⟨?_, ?_, ?_⟩
  · intro hbad
    unfold updateBusinessHandler
    simp [hfind, hown, hr, hbad]
  · intro h0 h5
    have hok : ¬ (r < 0 ∨ 5 < r) := by
      push_neg
      exact ⟨h0, h5⟩
    unfold updateBusinessHandler
    simp [hfind, hown, hr, hok, applyBusinessUpdate]
  · intro hinv y hy
    by_cases hbad : r < 0 ∨ 5 < r
    · unfold updateBusinessHandler at hy
      simp [hfind, hown, hr, hbad] at hy
      exact hinv y hy
    · unfold updateBusinessHandler at hy
      simp [hfind, hown, hr, hbad] at hy
      cases updateOk with
      | false =>
        simp at hy
        exact hinv y hy
      | true =>
        simp at hy
        rcases mem_updateStore store businessId (applyBusinessUpdate b body) y hy with
          heq | hmem
        · push_neg at hbad
          subst heq
          have : (applyBusinessUpdate b body).rating = r := by
            simp [applyBusinessUpdate, hr]
          rw [this]
          exact hbad
        · exact hinv y hmem

/-- Witness for C8: the boundary ratings `5.0001` (rejected) and `5.0` (accepted). -/
theorem c8_witness :
    updateBusinessHandler "u1" bidA ⟨none, none, none, none, none, some (50001/10000)⟩
        true [bizC]
      = (plainErr 400 "Rating must be a number between 0 and 5", [bizC]) ∧
    (updateBusinessHandler "u1" bidA ⟨none, none, none, none, none, some 5⟩
        true [bizC]).1.status = 200 := by
  have h1 := c8_rating_range "u1" bidA
    ⟨none, none, none, none, none, some (50001/10000)⟩ [bizC] bizC (50001/10000)
    true rfl rfl rfl
  have h2 := c8_rating_range "u1" bidA
    ⟨none, none, none, none, none, some 5⟩ [bizC] bizC 5 true rfl rfl rfl
  exact ⟨h1.1 (by norm_num), (h2.2.1 (by norm_num) (by norm_num)).1⟩

/-! ### C9 -/

/-- Counterexample to C9: a concrete failed operation (storage write succeeded,
association failed, compensation delete failed) whose error response carries the
internal storage path of the blob that is still sitting in the Blob Store. -/
theorem c9_counterexample_storage_path_leaked :
    (uploadImageToBusiness envC "u1" bidA (some fileA) [] [bizC]).resp.status = 500 ∧
    (uploadImageToBusiness envC "u1" bidA (some fileA) [] [bizC]).resp.storagePath
      = some (mkFileName "u1" bidA "t0" fileA) ∧
    (uploadImageToBusiness envC "u1" bidA (some fileA) [] [bizC]).blobStore
      = [mkFileName "u1" bidA "t0" fileA] :=
  ⟨by rfl, by rfl, by rfl⟩

/-- C9 as amended: an error response of the upload route never carries an internal
storage path — except the association-failure response, whose `storagePath` field
names exactly the just-written blob that the compensation delete targets. -/
theorem c9_amended_no_leak_except_assoc_failure (env : Env)
    (userId businessId : String) (file : Option UploadFile) (blob : List String)
    (store : RecordStore)
    (hfail : (handleUpload env userId businessId file blob store).resp.status ≠ 200) :
    (handleUpload env userId businessId file blob store).resp.storagePath = none ∨
    ((handleUpload env userId businessId file blob store).resp.status = 500 ∧
     (handleUpload env userId businessId file blob store).resp.error
        = some "Image uploaded but failed to associate with business" ∧
     ∃ p, (handleUpload env userId businessId file blob store).resp.storagePath = some p
        ∧ p ∈ (handleUpload env userId businessId file blob store).deleteAttempts) := by
  clear hfail
  cases file with
  | none => exact Or.inl rfl
  | some f =>
    unfold handleUpload uploadImageToBusiness
    repeat' (first | split | dsimp only)
    all_goals first
      | exact Or.inl rfl
      | exact Or.inr ⟨rfl, rfl, _, rfl, by simp⟩

/-- Witness for C9 (amended) at a concrete forbidden upload. -/
theorem c9_witness :
    (handleUpload envA "u2" bidA (some fileA) [] [bizC]).resp.storagePath = none ∨
    ((handleUpload envA "u2" bidA (some fileA) [] [bizC]).resp.status = 500 ∧
     (handleUpload envA "u2" bidA (some fileA) [] [bizC]).resp.error
        = some "Image uploaded but failed to associate with business" ∧
     ∃ p, (handleUpload envA "u2" bidA (some fileA) [] [bizC]).resp.storagePath = some p
        ∧ p ∈ (handleUpload envA "u2" bidA (some fileA) [] [bizC]).deleteAttempts) :=
  c9_amended_no_leak_except_assoc_failure envA "u2" bidA (some fileA) [] [bizC]
    (by decide)

/-! ### C10 -/

/-- C10: `addImageToBusiness` rejects, with no Record Store write, every URL that
does not contain the `business-images` marker (and an association can only succeed
when the marker is present); consequently the route handler — which passes the
generated bucket-relative storage path to the association step — ends in the
association-failure response with the Record Store unchanged whenever that generated
path lacks the marker. -/
theorem c10_marker_gate (rpcA mu : Bool) (store : RecordStore) (bid url : String)
    (env : Env) (userId businessId : String) (f : UploadFile) (blob : List String)
    (store2 : RecordStore) (b : Business) :
    (strContains url bucketMarker = false →
      addImageToBusiness rpcA mu store bid url
        = (.error "Image URL must be from the business-images storage bucket", store)) ∧
    (∀ b', (addImageToBusiness rpcA mu store bid url).1 = .ok b' →
      strContains url bucketMarker = true) ∧
    (findBusiness store2 businessId = some b → b.user_id = userId →
      isUuidFormat businessId = true → f.mimetype ∈ allowedTypes →
      env.lookupErr = false → env.storage = .ok →
      strContains (mkFileName userId businessId env.fresh f) bucketMarker = false →
      (uploadImageToBusiness env userId businessId (some f) blob store2).resp.status
          = 500 ∧
      (uploadImageToBusiness env userId businessId (some f) blob store2).resp.error
          = some "Image uploaded but failed to associate with business" ∧
      (uploadImageToBusiness env userId businessId (some f) blob store2).recordStore
          = store2) := by
  refine ⟨?_, ?_, ?_⟩
  · intro h
    unfold addImageToBusiness
    simp [h]
  · intro b' hok
    cases h : strContains url bucketMarker
    · exfalso
      unfold addImageToBusiness at hok
      simp [h] at hok
    · rfl
  · intro hfind hown huuid hmime hlook hstor hmark
    have hadd : addImageToBusiness env.rpcAvailable env.manualUpdateOk store2 businessId
        (mkFileName userId businessId env.fresh f)
        = (.error "Image URL must be from the business-images storage bucket", store2) := by
      unfold addImageToBusiness
      simp [hmark]
    unfold uploadImageToBusiness
    simp [huuid, hmime, hlook, hfind, hown, hstor, hadd]

/-- Witness for C10: a marker-free URL is rejected, and the concrete handler run with
a marker-free generated path ends 500 with the store unchanged. -/
theorem c10_witness :
    addImageToBusiness true true [bizC] bidA "u1/other/x.png"
      = (.error "Image URL must be from the business-images storage bucket", [bizC]) ∧
    (uploadImageToBusiness envA "u1" bidA (some fileA) [] [bizC]).recordStore = [bizC] ∧
    (uploadImageToBusiness envA "u1" bidA (some fileA) [] [bizC]).resp.status = 500 := by
  have h := c10_marker_gate true true [bizC] bidA "u1/other/x.png" envA "u1" bidA fileA
    [] [bizC] bizC
  have h3 := h.2.2 rfl rfl rfl (by decide) rfl rfl (by rfl)
  exact ⟨h.1 (by rfl), h3.2.2, h3.1⟩

end BusinessImages

